import Mathlib

/-!
Verification of the Altcraft React Native SDK bridge
(`altcraft/react-native-sdk`).

This file shallowly embeds the value-conversion utilities, the Android
(Kotlin) bridge module, the iOS (Swift) bridge module, and the JS facade,
and proves/refutes the behavioural claims stated about them.

External collaborators (the native Altcraft SDK library, the React Native
runtime, Foundation's `JSONSerialization`) are modelled as explicit
function parameters: the bridge's own logic is translated faithfully, and
the collaborator's behaviour is left free.
-/

set_option maxRecDepth 4000

namespace Altcraft

/-! ## JS value model (TypeScript facade layer)

`src/Utilities.ts` / `src/NativeSdk.ts` operate on dynamically typed JS
values.  The embedding models the JS value universe as an inductive type.
JS numbers are modelled as integers together with their decimal rendering;
none of the verified claims depend on non-integral number rendering.
JS objects are association lists in insertion order (JS object keys are
unique, `Object.entries` yields insertion order). -/

inductive JSValue where
  | jNull : JSValue
  | jUndef : JSValue
  | jBool : Bool → JSValue
  | jNum : Int → JSValue
  | jStr : String → JSValue
  | jArr : List JSValue → JSValue
  | jObj : List (String × JSValue) → JSValue
deriving Repr

namespace JSValue

/-- `String(value)` for a JS boolean. -/
def boolToString (b : Bool) : String := if b then "true" else "false"

/-- Hex digit for `\u00XX` escapes. -/
def hexDigit (n : Nat) : Char :=
  if n < 10 then Char.ofNat (48 + n) else Char.ofNat (87 + n)

/-- JSON string escaping as performed by `JSON.stringify`. -/
def jsonEscapeChar (c : Char) : String :=
  if c = '"' then "\\\""
  else if c = '\\' then "\\\\"
  else if c = '\n' then "\\n"
  else if c = '\t' then "\\t"
  else if c = '\r' then "\\r"
  else if c.toNat < 32 then
    "\\u00" ++ String.mk [hexDigit (c.toNat / 16), hexDigit (c.toNat % 16)]
  else String.singleton c

/-- A JSON-quoted string literal. -/
def jsonQuote (s : String) : String :=
  "\"" ++ String.join (s.toList.map jsonEscapeChar) ++ "\""

mutual

/-- `JSON.stringify` on the modelled JS value universe.  On this universe
(finite, acyclic, no functions/symbols/bigints) `JSON.stringify` cannot
throw; `undefined` renders as `null` inside arrays and its keys are
skipped inside objects. -/
def jsonStringify : JSValue → String
  | .jNull => "null"
  | .jUndef => "null"
  | .jBool b => boolToString b
  | .jNum n => toString n
  | .jStr s => jsonQuote s
  | .jArr xs => "[" ++ jsonStringifyList xs ++ "]"
  | .jObj kvs => "\x7b" ++ jsonStringifyObj kvs ++ "\x7d"

/-- Comma-joined serialization of a JS array's elements. -/
def jsonStringifyList : List JSValue → String
  | [] => ""
  | [x] => jsonStringify x
  | x :: y :: rest => jsonStringify x ++ "," ++ jsonStringifyList (y :: rest)

/-- Comma-joined serialization of a JS object's entries;
`undefined`-valued keys are skipped, as `JSON.stringify` does. -/
def jsonStringifyObj : List (String × JSValue) → String
  | [] => ""
  | (k, v) :: rest =>
    match v with
    | .jUndef => jsonStringifyObj rest
    | v =>
      let piece := jsonQuote k ++ ":" ++ jsonStringify v
      match jsonStringifyObj rest with
      | "" => piece
      | r => piece ++ "," ++ r

end

end JSValue

namespace Utilities

open JSValue

/-- One iteration body of the `for (const [key, value] of Object.entries(input))`
loop in `Utilities.toNativeStringMap`: the string the entry contributes, or
`none` when the entry is skipped (`value == null` covers both `null` and
`undefined`).  `JSON.stringify` is total on the modelled value universe, so
the `catch { out[key] = String(value) }` fallback is unreachable. -/
def entryToString : JSValue → Option String
  | .jNull => none
  | .jUndef => none
  | .jStr s => some s
  | .jNum n => some (toString n)
  | .jBool b => some (boolToString b)
  | v => some (jsonStringify v)

/-- `Utilities.toNativeStringMap` (identical copy in `NativeSdk.ts`):
converts a JS object to a `{ [key: string]: string }` for the RN bridge,
dropping `null`/`undefined` values and returning `null` instead of an
empty map. -/
def toNativeStringMap (input : Option (List (String × JSValue))) :
    Option (List (String × String)) :=
  match input with
  | none => none
  | some entries =>
    let out := entries.filterMap (fun kv => (entryToString kv.2).map (kv.1, ·))
    if out.length > 0 then some out else none

end Utilities

end Altcraft

namespace Altcraft

open JSValue

/-- Helper: the filterMap underlying `toNativeStringMap`. -/
def stringMapEntries (entries : List (String × JSValue)) :
    List (String × String) :=
  entries.filterMap (fun kv => (Utilities.entryToString kv.2).map (kv.1, ·))

theorem toNativeStringMap_eq (entries : List (String × JSValue)) :
    Utilities.toNativeStringMap (some entries) =
      (if (stringMapEntries entries).length > 0
       then some (stringMapEntries entries) else none) := rfl

theorem mem_stringMapEntries {entries : List (String × JSValue)}
    {k : String} {s : String} :
    (k, s) ∈ stringMapEntries entries ↔
      ∃ v, (k, v) ∈ entries ∧ Utilities.entryToString v = some s := by
  constructor
  · intro h
    rcases List.mem_filterMap.mp h with ⟨⟨k', v⟩, hmem, hmap⟩
    rcases Option.map_eq_some'.mp hmap with ⟨s', hs', heq⟩
    cases heq
    exact ⟨v, hmem, hs'⟩
  · rintro ⟨v, hmem, hv⟩
    exact List.mem_filterMap.mpr ⟨(k, v), hmem, by simp [hv]⟩

/-- **C2**: for every input object `m` to the string-map converter
`toNativeStringMap`: every key whose value is `null`/`undefined` is
dropped; string values pass through unchanged; numbers/booleans are
stringified; nested objects/arrays are JSON-serialized; and if the
resulting map would be empty the function returns `null`, never an empty
map `{}`. -/
theorem toNativeStringMap_spec (m : List (String × JSValue)) :
    -- dropped: a key all of whose occurrences are null/undefined never
    -- appears in the result
    (∀ k, (∀ v, (k, v) ∈ m → v = JSValue.jNull ∨ v = JSValue.jUndef) →
      ∀ out, Utilities.toNativeStringMap (some m) = some out →
        ∀ s, (k, s) ∉ out) ∧
    -- strings pass through unchanged
    (∀ k s out, (k, JSValue.jStr s) ∈ m →
      Utilities.toNativeStringMap (some m) = some out → (k, s) ∈ out) ∧
    -- numbers and booleans are stringified
    (∀ k n out, (k, JSValue.jNum n) ∈ m →
      Utilities.toNativeStringMap (some m) = some out →
      (k, toString n) ∈ out) ∧
    (∀ k b out, (k, JSValue.jBool b) ∈ m →
      Utilities.toNativeStringMap (some m) = some out →
      (k, JSValue.boolToString b) ∈ out) ∧
    -- nested objects/arrays are JSON-serialized
    (∀ k kvs out, (k, JSValue.jObj kvs) ∈ m →
      Utilities.toNativeStringMap (some m) = some out →
      (k, JSValue.jsonStringify (JSValue.jObj kvs)) ∈ out) ∧
    (∀ k xs out, (k, JSValue.jArr xs) ∈ m →
      Utilities.toNativeStringMap (some m) = some out →
      (k, JSValue.jsonStringify (JSValue.jArr xs)) ∈ out) ∧
    -- the empty map is never returned
    Utilities.toNativeStringMap (some m) ≠ some [] := by
  refine ⟨?_, ?_, ?_, ?_, ?_, ?_, ?_⟩
  · intro k hk out hout s hs
    rw [toNativeStringMap_eq] at hout
    split at hout
    · cases hout
      rcases mem_stringMapEntries.mp hs with ⟨v, hvm, hv⟩
      rcases hk v hvm with h | h <;> subst h <;>
        simp [Utilities.entryToString] at hv
    · cases hout
  all_goals
    first
    | (intro k x out hmem hout
       rw [toNativeStringMap_eq] at hout
       split at hout
       · cases hout
         exact mem_stringMapEntries.mpr ⟨_, hmem, rfl⟩
       · cases hout)
    | (intro h
       rw [toNativeStringMap_eq] at h
       split at h
       · rename_i hlen
         have h' := Option.some.inj h
         rw [h'] at hlen
         simp at hlen
       · exact Option.noConfusion h)

end Altcraft

namespace Altcraft

/-! ## Numeric normalization (C8)

`Converter.normalizeNumber` exists on both platforms
(`android/.../Converter.kt` and `ios/Converter.swift`).  A `Double` is
modelled by the exact rational value it denotes, plus the three
non-finite values.  The two platform-specific conversions the code uses —
Kotlin's saturating `Double.toLong()` and the round-to-nearest
`Long → Double` conversion — are modelled exactly on that domain. -/

/-- Model of a Kotlin/Swift `Double`: a finite value (the exact rational
it denotes) or one of the non-finite values. -/
inductive KDouble where
  | finite (q : ℚ)
  | nan
  | posInf
  | negInf
deriving DecidableEq, Repr

def KDouble.isFinite : KDouble → Bool
  | .finite _ => true
  | _ => false

def longMaxI : Int := 9223372036854775807
def longMinI : Int := -9223372036854775808
def intMaxI : Int := 2147483647
def intMinI : Int := -2147483648

/-- Truncation toward zero of a rational number. -/
def ratTrunc (q : ℚ) : Int := q.num.tdiv (q.den : Int)

/-- Kotlin `Double.toLong()` (= Java double→long): round toward zero,
saturating at the `Long` range; `NaN` maps to `0`. -/
def kotlinDoubleToLong : KDouble → Int
  | .nan => 0
  | .posInf => longMaxI
  | .negInf => longMinI
  | .finite q =>
    let t := ratTrunc q
    if t > longMaxI then longMaxI else if t < longMinI then longMinI else t

/-- Fuel-driven binary length; `bitLenAux n n` is exact for every `n`
because halving `n` reaches `0` within `n` steps. -/
def bitLenAux : Nat → Nat → Nat
  | 0, _ => 0
  | fuel + 1, n => if n = 0 then 0 else bitLenAux fuel (n / 2) + 1

/-- Number of binary digits of `n`. -/
def bitLen (n : Nat) : Nat := bitLenAux n n

/-- `Long.toDouble()` / Swift `Double(i64)`: round-to-nearest (ties to
even) conversion of an integer to the nearest IEEE-754 double, returned
as the exact integer that double denotes.  Integers up to `2^53` are
exactly representable; a larger integer with `b` binary digits rounds to
the nearest multiple of `2^(b-53)`. -/
def roundIntToDouble (n : Int) : Int :=
  let m := n.natAbs
  if m ≤ 2 ^ 53 then n
  else
    let k := bitLen m - 53
    let step := 2 ^ k
    let q := m / step
    let r := m % step
    let m' := if 2 * r < step then q * step
              else if 2 * r > step then (q + 1) * step
              else if q % 2 = 0 then q * step else (q + 1) * step
    if n < 0 then -(m' : Int) else (m' : Int)

/-- The result universe of the numeric normalization: Kotlin
`Int`/`Long`/`Double` (on iOS: `Int`/`Int64`/`Double`). -/
inductive KNum where
  | kInt (z : Int)
  | kLong (z : Int)
  | kDouble (d : KDouble)
deriving DecidableEq, Repr

/-- `Converter.normalizeNumber` (Android, Kotlin): non-finite values pass
through as `Double`; otherwise truncate with `toLong()` and compare the
round-trip `asLong.toDouble()` with the input; integers become `Int` when
inside the 32-bit range, else `Long`; everything else stays `Double`. -/
def normalizeNumberAndroid (d : KDouble) : KNum :=
  if !d.isFinite then .kDouble d
  else
    match d with
    | .finite q =>
      let asLong := kotlinDoubleToLong (.finite q)
      let isInteger : Bool := q = ((roundIntToDouble asLong : Int) : ℚ)
      if !isInteger then .kDouble (.finite q)
      else if intMinI ≤ asLong ∧ asLong ≤ intMaxI then .kInt asLong
      else .kLong asLong
    | d => .kDouble d

/-- `Converter.normalizeNumber` (iOS, Swift): same shape, but the
conversion `Int64(d)` *traps* when the truncated value lies outside the
`Int64` range — modelled as `none`.  On a 64-bit iOS device Swift `Int`
equals `Int64`, so the `Int` branch covers the whole range and the
`Int64` fallback branch is dead. -/
def normalizeNumberSwift (d : KDouble) : Option KNum :=
  if !d.isFinite then some (.kDouble d)
  else
    match d with
    | .finite q =>
      let t := ratTrunc q
      if t < longMinI ∨ t > longMaxI then none
      else
        let asInt64 := t
        if q ≠ ((roundIntToDouble asInt64 : Int) : ℚ) then
          some (.kDouble (.finite q))
        else some (.kInt asInt64)
    | _ => none

/-- **C8, counterexample**: `1e19` is a finite double without a
fractional part (`10^19` is exactly representable: `10^19 = 5^19·2^19`
and `5^19 < 2^53`), yet the Android normalization leaves it a `Double`
(the saturating `toLong()` round-trip gives `2^63 ≠ 10^19`) and the iOS
normalization traps on it (`Int64(1e19)` is out of range) — so the
claimed "integral finite doubles become an integer type" and "the
normalization function is total" both fail. -/
theorem normalizeNumber_not_integer_on_1e19 :
    normalizeNumberAndroid (.finite ((10 ^ 19 : Int) : ℚ)) =
      .kDouble (.finite ((10 ^ 19 : Int) : ℚ)) ∧
    normalizeNumberSwift (.finite ((10 ^ 19 : Int) : ℚ)) = none := by
  constructor <;> decide

end Altcraft

namespace Altcraft

theorem toNativeStringMap_spec_witness :
    ("a", "v") ∈ ([("a", "v"), ("b", "1")] : List (String × String)) :=
  (toNativeStringMap_spec
      [("x", JSValue.jNull), ("a", JSValue.jStr "v"), ("b", JSValue.jNum 1)]).2.1
    "a" "v" [("a", "v"), ("b", "1")]
    (List.mem_cons_of_mem _ (List.mem_cons_self _ _))
    (by decide)

/-- **C8 (amended)**: the numeric-normalization rule holds restricted to
values whose saturating 64-bit truncation round-trips exactly: non-finite
values are returned as floating point unchanged; finite values with a
fractional part stay floating (on iOS provided the truncation does not
trap); a finite integral value in the `Int64` range that is exactly
representable becomes `Int` when inside the 32-bit range and `Long`
otherwise on Android, and `Int` on iOS (where `Int` is 64-bit).  Outside
the `Int64` range an integral double stays `Double` on Android and traps
on iOS (see the counterexample at `1e19`). -/
theorem normalizeNumber_spec :
    (∀ d : KDouble, d.isFinite = false →
       normalizeNumberAndroid d = .kDouble d ∧
       normalizeNumberSwift d = some (.kDouble d)) ∧
    (∀ q : ℚ, q.den ≠ 1 →
       normalizeNumberAndroid (.finite q) = .kDouble (.finite q)) ∧
    (∀ q : ℚ, q.den ≠ 1 → longMinI ≤ ratTrunc q → ratTrunc q ≤ longMaxI →
       normalizeNumberSwift (.finite q) = some (.kDouble (.finite q))) ∧
    (∀ z : Int, longMinI ≤ z → z ≤ longMaxI → roundIntToDouble z = z →
       normalizeNumberAndroid (.finite (z : ℚ)) =
         (if intMinI ≤ z ∧ z ≤ intMaxI then .kInt z else .kLong z) ∧
       normalizeNumberSwift (.finite (z : ℚ)) = some (.kInt z)) := by
  refine ⟨?_, ?_, ?_, ?_⟩
  · intro d hd
    cases d with
    | finite q => simp [KDouble.isFinite] at hd
    | nan => exact ⟨rfl, rfl⟩
    | posInf => exact ⟨rfl, rfl⟩
    | negInf => exact ⟨rfl, rfl⟩
  · intro q hq
    have hne : q ≠ ((roundIntToDouble (kotlinDoubleToLong (.finite q)) : Int) : ℚ) := by
      intro h
      apply hq
      rw [h, Rat.den_intCast]
    simp [normalizeNumberAndroid, KDouble.isFinite, hne]
  · intro q hq h1 h2
    have hne : q ≠ ((roundIntToDouble (ratTrunc q) : Int) : ℚ) := by
      intro h
      apply hq
      rw [h, Rat.den_intCast]
    simp [normalizeNumberSwift, KDouble.isFinite, hne, not_or, not_lt, h1, h2]
  · intro z h1 h2 h3
    have htr : ratTrunc ((z : ℚ)) = z := by
      simp [ratTrunc, Rat.num_intCast, Rat.den_intCast, Int.tdiv_one]
    have hlong : kotlinDoubleToLong (.finite (z : ℚ)) = z := by
      simp only [kotlinDoubleToLong, htr]
      rw [if_neg (by omega), if_neg (by omega)]
    constructor
    · simp only [normalizeNumberAndroid, KDouble.isFinite, Bool.not_true,
        Bool.false_eq_true, if_false, hlong, h3]
      simp
    · simp only [normalizeNumberSwift, KDouble.isFinite, Bool.not_true,
        Bool.false_eq_true, if_false, htr, h3]
      rw [if_neg (by omega)]
      simp

end Altcraft

namespace Altcraft

/-! ## Android bridge (`SdkModule.kt`, `Extension.kt`, `Converter.kt`)

`ReadableMap` values are modelled as association lists in key order
(React Native map keys are unique).  Kotlin exceptions are modelled with
`Except`; a Kotlin `Throwable` carries a nullable message.  The native
Altcraft SDK entry points (`AltcraftSDK.initialization`,
`AltcraftConfiguration.Builder(...).build()`,
`PublicPushSubscriptionFunctions.*`, `PublicPushTokenFunctions.*`,
`PublicMobileEventFunction.mobileEvent`, …) are *external* to this
repository and enter the model as function parameters. -/

namespace AndroidBridge

/-- A React Native bridge value (`ReadableMap` entry / `ReadableArray`
element), after the JS → native marshalling. -/
inductive RnVal where
  | rNull
  | rBool (b : Bool)
  | rNum (d : KDouble)
  | rStr (s : String)
  | rMap (m : List (String × RnVal))
  | rArr (xs : List RnVal)

abbrev RnMap := List (String × RnVal)

/-- A Kotlin `Throwable`: nullable message. -/
structure KExc where
  msg : Option String

/-- `ReadableMap.hasKey`. -/
def hasKey (m : RnMap) (k : String) : Bool := (List.lookup k m).isSome

/-- `ReadableMap.isNull(key)` (false when the key is absent, matching the
guarded uses in `Extension.kt`). -/
def isNullKey (m : RnMap) (k : String) : Bool :=
  match List.lookup k m with
  | some .rNull => true
  | _ => false

/-- `ReadableMap.hasNonNullKey` (`Extension.kt`):
`hasKey(key) && !isNull(key)`. -/
def hasNonNullKey (m : RnMap) (k : String) : Bool :=
  hasKey m k && !(isNullKey m k)

/-- `ReadableMap.getString`: `null` for a null value, the string for a
string value; a missing key raises `NoSuchKeyException` and a value of a
different type raises `UnexpectedNativeTypeException`. -/
def getStringK (m : RnMap) (k : String) : Except KExc (Option String) :=
  match List.lookup k m with
  | none => .error ⟨some ("No such key: " ++ k)⟩
  | some .rNull => .ok none
  | some (.rStr s) => .ok (some s)
  | some _ => .error ⟨some ("Value for " ++ k ++ " cannot be cast to String")⟩

/-- `ReadableMap.getStringOrNull` (`Extension.kt`). -/
def getStringOrNull (m : RnMap) (k : String) : Except KExc (Option String) :=
  if hasNonNullKey m k then getStringK m k else .ok none

/-- `ReadableMap.getBoolean`, with the same exception behaviour. -/
def getBooleanK (m : RnMap) (k : String) : Except KExc Bool :=
  match List.lookup k m with
  | none => .error ⟨some ("No such key: " ++ k)⟩
  | some (.rBool b) => .ok b
  | some _ => .error ⟨some ("Value for " ++ k ++ " cannot be cast to Boolean")⟩

/-- `ReadableMap.getBooleanOrNull` (`Extension.kt`). -/
def getBooleanOrNull (m : RnMap) (k : String) : Except KExc (Option Bool) :=
  if hasNonNullKey m k then (getBooleanK m k).map some else .ok none

/-- `ReadableMap.getInt` (a number is truncated to `int`). -/
def getIntK (m : RnMap) (k : String) : Except KExc Int :=
  match List.lookup k m with
  | none => .error ⟨some ("No such key: " ++ k)⟩
  | some (.rNum d) => .ok (kotlinDoubleToLong d)
  | some _ => .error ⟨some ("Value for " ++ k ++ " cannot be cast to Int")⟩

/-- `ReadableMap.getIntOrNull` (`Extension.kt`). -/
def getIntOrNull (m : RnMap) (k : String) : Except KExc (Option Int) :=
  if hasNonNullKey m k then (getIntK m k).map some else .ok none

/-- `ReadableMap.getMapOrNull` (`Extension.kt`). -/
def getMapOrNull (m : RnMap) (k : String) : Except KExc (Option RnMap) :=
  if hasNonNullKey m k then
    match List.lookup k m with
    | some (.rMap mm) => .ok (some mm)
    | _ => .error ⟨some ("Value for " ++ k ++ " cannot be cast to Map")⟩
  else .ok none

/-- `ReadableMap.getArrayOrNull` (`Extension.kt`). -/
def getArrayOrNull (m : RnMap) (k : String) : Except KExc (Option (List RnVal)) :=
  if hasNonNullKey m k then
    match List.lookup k m with
    | some (.rArr xs) => .ok (some xs)
    | _ => .error ⟨some ("Value for " ++ k ++ " cannot be cast to Array")⟩
  else .ok none

/-- `ReadableArray.toStringList` (`Extension.kt`): keeps string elements,
skips nulls and non-strings. -/
def toStringList (xs : List RnVal) : List String :=
  xs.filterMap fun v =>
    match v with
    | .rStr s => some s
    | _ => none

/-- Kotlin value universe after `Converter.toKotlinMap` /
`Converter.toKotlinList`. -/
inductive KotlinAny where
  | kaNull
  | kaBool (b : Bool)
  | kaNum (n : KNum)
  | kaStr (s : String)
  | kaMap (m : List (String × KotlinAny))
  | kaList (xs : List KotlinAny)

mutual

/-- `Converter.readMapValue` / `Converter.readArrayValue`: an RN value
becomes a Kotlin value; numbers go through `normalizeNumber`. -/
def readValue : RnVal → KotlinAny
  | .rNull => .kaNull
  | .rBool b => .kaBool b
  | .rStr s => .kaStr s
  | .rNum d => .kaNum (normalizeNumberAndroid d)
  | .rMap m => .kaMap (readEntries m)
  | .rArr xs => .kaList (readList xs)

def readEntries : List (String × RnVal) → List (String × KotlinAny)
  | [] => []
  | (k, v) :: rest => (k, readValue v) :: readEntries rest

def readList : List RnVal → List KotlinAny
  | [] => []
  | v :: rest => readValue v :: readList rest

end

/-- `Converter.toKotlinMap`. -/
def toKotlinMap (m : Option RnMap) : Option (List (String × KotlinAny)) :=
  m.map readEntries

/-- `Converter.toKotlinList`. -/
def toKotlinList (xs : Option (List RnVal)) : Option (List KotlinAny) :=
  xs.map readList

/-- `Converter.toStringMapOrNull`: keeps only string values; an empty
result becomes `null`. -/
def toStringMapOrNull (m : Option RnMap) : Option (List (String × String)) :=
  match toKotlinMap m with
  | none => none
  | some anyMap =>
    let result := anyMap.filterMap fun kv =>
      match kv.2 with
      | .kaStr s => some (kv.1, s)
      | _ => none
    if result.isEmpty then none else some result

/-- `DataClasses.CategoryData`. -/
structure CategoryData where
  name : String
  title : Option String
  steady : Option Bool
  active : Option Bool
deriving DecidableEq, Repr

/-- `Converter.toCategoryListOrNull`: a string item becomes a category
with `active = true`; a map item is kept only when it has a string
`name`; other items are dropped. -/
def toCategoryListOrNull (array : Option (List RnVal)) :
    Option (List CategoryData) :=
  match array with
  | none => none
  | some arr =>
    let anyList := readList arr
    some (anyList.filterMap fun item =>
      match item with
      | .kaStr s => some ⟨s, none, none, some true⟩
      | .kaMap m =>
        match List.lookup "name" m with
        | some (.kaStr name) =>
          some ⟨name,
            (match List.lookup "title" m with
             | some (.kaStr t) => some t
             | _ => none),
            (match List.lookup "steady" m with
             | some (.kaBool b) => some b
             | _ => none),
            (match List.lookup "active" m with
             | some (.kaBool b) => some b
             | _ => none)⟩
        | _ => none
      | _ => none)

/-- Outcome of a promise-returning bridge call. -/
inductive Promise (α : Type) where
  | resolved (v : α)
  | rejected (code : String) (msg : String)
deriving DecidableEq, Repr

/-- `DataClasses.AppInfo`. -/
structure AppInfo where
  appID : String
  appIID : String
  appVer : String
deriving DecidableEq, Repr

/-- The arguments `AltcraftRnConfigMapper.buildConfiguration` hands to
the external `AltcraftConfiguration.Builder`. -/
structure BuilderArgs where
  apiUrl : String
  icon : Option Int
  rToken : Option String
  usingService : Bool
  serviceMessage : Option String
  appInfo : Option AppInfo
  providerPriorityList : Option (List String)
  pushReceiverModules : Option (List String)
  pushChannelName : Option String
  pushChannelDescription : Option String
  enableLogging : Option Bool

/-- `AltcraftRnConfigMapper.buildConfiguration`, parameterized by the
external native `AltcraftConfiguration.Builder(...).build()` (the native
SDK library is not part of this repository; `build` may itself throw). -/
def buildConfiguration {C : Type} (build : BuilderArgs → Except KExc C)
    (config : RnMap) : Except KExc C := do
  if !(hasNonNullKey config "apiUrl") then
    throw ⟨some "apiUrl is required for AltcraftConfiguration"⟩
  let apiUrlOpt ← getStringK config "apiUrl"
  let apiUrl ← match apiUrlOpt with
    | some s => pure s
    | none => throw (⟨some "apiUrl must be a non-null string"⟩ : KExc)
  let rToken ← getStringOrNull config "rToken"
  let appInfoMap ← getMapOrNull config "appInfo"
  let appInfo ← match appInfoMap with
    | none => pure none
    | some am => do
      let appID ← getStringOrNull am "appID"
      let appIID ← getStringOrNull am "appIID"
      let appVer ← getStringOrNull am "appVer"
      pure (some (AppInfo.mk (appID.getD "") (appIID.getD "") (appVer.getD "")))
  let ppl ← getArrayOrNull config "providerPriorityList"
  let enableLogging ← getBooleanOrNull config "enableLogging"
  let icon ← getIntOrNull config "android_icon"
  let usingServiceOpt ← getBooleanOrNull config "android_usingService"
  let serviceMessage ← getStringOrNull config "android_serviceMessage"
  let prm ← getArrayOrNull config "android_pushReceiverModules"
  let pushChannelName ← getStringOrNull config "android_pushChannelName"
  let pushChannelDescription ← getStringOrNull config "android_pushChannelDescription"
  build
    { apiUrl := apiUrl
      icon := icon
      rToken := rToken
      usingService := usingServiceOpt.getD false
      serviceMessage := serviceMessage
      appInfo := appInfo
      providerPriorityList := ppl.map toStringList
      pushReceiverModules := prm.map toStringList
      pushChannelName := pushChannelName
      pushChannelDescription := pushChannelDescription
      enableLogging := enableLogging }

/-- Result of the native SDK's initialization callback
(Kotlin `Result<*>`). -/
inductive InitResult where
  | success
  | failure (t : Option KExc)

/-- `AltcraftRnInitializer.initialize`: builds the configuration inside a
`try`; any exception rejects with `ALTCRAFT_INIT_INVALID_CONFIG` before
`AltcraftSDK.initialization` is invoked; otherwise the native callback
result settles the promise.  The second component records whether the
native initialization entry point was invoked. -/
def rnInitialize {C : Type} (build : BuilderArgs → Except KExc C)
    (nativeInit : C → InitResult) (config : RnMap) :
    Promise Unit × Bool :=
  match buildConfiguration build config with
  | .error e =>
    (.rejected "ALTCRAFT_INIT_INVALID_CONFIG"
      (e.msg.getD "Invalid Altcraft configuration"), false)
  | .ok cfg =>
    match nativeInit cfg with
    | .success => (.resolved (), true)
    | .failure (some t) =>
      (.rejected "ALTCRAFT_INIT_ERROR"
        (t.msg.getD "Altcraft initialization error"), true)
    | .failure none =>
      (.rejected "ALTCRAFT_INIT_ERROR"
        "Altcraft initialization failed with unknown error", true)

/-- Kotlin `String.isBlank()`: empty or whitespace-only. -/
def isBlank (s : String) : Bool := s.toList.all Char.isWhitespace

/-- Trace of the native token calls `SdkModule.setPushToken` makes, with
the promise outcome.  The Android module body contains a single call to
the native *set* entry point and no call to any deletion entry point, so
the trace has a `setCalls` list and an (always untouched) `deleteCalls`
list. -/
structure TokenCallTrace where
  promise : Promise Unit
  setCalls : List (String × String)
  deleteCalls : List String
deriving DecidableEq, Repr

/-- `SdkModule.setPushToken` (Android, the module revision shipped as
`part_000`): a blank provider rejects with code
`"setPushToken"`/`"provider is blank"` before any native call; a
`null` token is coalesced to `""` and passed to the native *set* path
`PublicPushTokenFunctions.setPushToken`; a native exception rejects with
code `"setPushToken"`.  This revision contains no deletion call. -/
def setPushTokenAndroid (nativeSet : String → String → Except KExc Unit)
    (provider : String) (token : Option String) : TokenCallTrace :=
  if isBlank provider then
    { promise := .rejected "setPushToken" "provider is blank"
      setCalls := []
      deleteCalls := [] }
  else
    let tokenToPass := token.getD ""
    match nativeSet provider tokenToPass with
    | .ok _ =>
      { promise := .resolved ()
        setCalls := [(provider, tokenToPass)]
        deleteCalls := [] }
    | .error e =>
      { promise := .rejected "setPushToken" (e.msg.getD "")
        setCalls := [(provider, tokenToPass)]
        deleteCalls := [] }

/-- `SdkModule.setPushToken` in the coexisting `src/android` module
revision (`SdkModule.kt`, lines 337–365): a blank provider rejects
before any native call; a `null` token is treated as "clear token" and
invokes the provider-specific *deletion* path
`PublicPushTokenFunctions.deleteDeviceToken(provider)`; a non-null token
goes to the *set* path; a native exception rejects with code
`"setPushToken"`. -/
def setPushTokenAndroidOld (nativeSet : String → String → Except KExc Unit)
    (nativeDelete : String → Except KExc Unit)
    (provider : String) (token : Option String) : TokenCallTrace :=
  if isBlank provider then
    { promise := .rejected "setPushToken" "provider is blank"
      setCalls := []
      deleteCalls := [] }
  else
    match token with
    | none =>
      match nativeDelete provider with
      | .ok _ =>
        { promise := .resolved ()
          setCalls := []
          deleteCalls := [provider] }
      | .error e =>
        { promise := .rejected "setPushToken" (e.msg.getD "")
          setCalls := []
          deleteCalls := [provider] }
    | some t =>
      match nativeSet provider t with
      | .ok _ =>
        { promise := .resolved ()
          setCalls := [(provider, t)]
          deleteCalls := [] }
      | .error e =>
        { promise := .rejected "setPushToken" (e.msg.getD "")
          setCalls := [(provider, t)]
          deleteCalls := [] }

/-- The arguments `SdkModule.pushSubscribe` / `pushSuspend` /
`pushUnSubscribe` (Android) pass to the corresponding
`PublicPushSubscriptionFunctions` entry point. -/
structure SubscribeArgs where
  sync : Bool
  profileFields : Option (List (String × KotlinAny))
  customFields : Option (List (String × KotlinAny))
  cats : Option (List CategoryData)
  replace : Option Bool
  skipTriggers : Option Bool

/-- Argument marshalling shared by the three Android subscription
bridges: `sync` defaults to `true` when `null`. -/
def subscribeArgs (sync : Option Bool) (profileFields customFields : Option RnMap)
    (cats : Option (List RnVal)) (replace skipTriggers : Option Bool) :
    SubscribeArgs :=
  { sync := sync.getD true
    profileFields := toKotlinMap profileFields
    customFields := toKotlinMap customFields
    cats := toCategoryListOrNull cats
    replace := replace
    skipTriggers := skipTriggers }

/-- `SdkModule.pushSubscribe` (Android): fire-and-forget, and — unlike
`mobileEvent` — *not* wrapped in `try`/`catch`: an exception from the
native call propagates to the caller. -/
def pushSubscribeAndroid (native : SubscribeArgs → Except KExc Unit)
    (sync : Option Bool) (profileFields customFields : Option RnMap)
    (cats : Option (List RnVal)) (replace skipTriggers : Option Bool) :
    Except KExc Unit :=
  native (subscribeArgs sync profileFields customFields cats replace skipTriggers)

/-- `SdkModule.pushSuspend` (Android), same shape as `pushSubscribe`. -/
def pushSuspendAndroid (native : SubscribeArgs → Except KExc Unit)
    (sync : Option Bool) (profileFields customFields : Option RnMap)
    (cats : Option (List RnVal)) (replace skipTriggers : Option Bool) :
    Except KExc Unit :=
  native (subscribeArgs sync profileFields customFields cats replace skipTriggers)

/-- `SdkModule.pushUnSubscribe` (Android), same shape as `pushSubscribe`. -/
def pushUnSubscribeAndroid (native : SubscribeArgs → Except KExc Unit)
    (sync : Option Bool) (profileFields customFields : Option RnMap)
    (cats : Option (List RnVal)) (replace skipTriggers : Option Bool) :
    Except KExc Unit :=
  native (subscribeArgs sync profileFields customFields cats replace skipTriggers)

/-- `SdkModule.takePush` (Android): early-returns on a null/empty
payload; the native call is *not* wrapped in `try`/`catch`. -/
def takePushAndroid (native : List (String × String) → Except KExc Unit)
    (message : Option RnMap) : Except KExc Unit :=
  match message with
  | none => .ok ()
  | some mm =>
    match toStringMapOrNull (some mm) with
    | none => .ok ()
    | some map => if !map.isEmpty then native map else .ok ()

/-- `DataClasses.UTM` as built by `SdkModule.mobileEvent`. -/
structure UTM where
  campaign : Option String
  content : Option String
  keyword : Option String
  medium : Option String
  source : Option String
  temp : Option String

/-- The UTM construction inside `mobileEvent`:
`utm?.let { DataClasses.UTM(campaign = it.getString("campaign"), …) }`
(`getString` may throw inside the surrounding `try`). -/
def buildUTM (utm : Option RnMap) : Except KExc (Option UTM) :=
  match utm with
  | none => .ok none
  | some m => do
    let campaign ← getStringK m "campaign"
    let content ← getStringK m "content"
    let keyword ← getStringK m "keyword"
    let medium ← getStringK m "medium"
    let source ← getStringK m "source"
    let temp ← getStringK m "temp"
    pure (some ⟨campaign, content, keyword, medium, source, temp⟩)

/-- The arguments `SdkModule.mobileEvent` passes to the external
`PublicMobileEventFunction.mobileEvent`.  The subscription payload is
converted by `Converter.toSubscriptionOrNull`, whose source is not in
this repository snapshot; it enters the model as the parameter `σ`. -/
structure MobileEventArgs (σ : Type) where
  sid : String
  eventName : String
  sendMessageId : Option String
  payload : Option (List (String × KotlinAny))
  matching : Option (List (String × KotlinAny))
  matchingType : Option String
  profileFields : Option (List (String × KotlinAny))
  subscription : Option σ
  utm : Option UTM

/-- `SdkModule.mobileEvent` (Android): the whole body — UTM construction,
conversions, and the native call — runs inside `try { … } catch (e) {
e.printStackTrace() }`, so every exception is swallowed. -/
def mobileEventAndroid {σ : Type}
    (native : MobileEventArgs σ → Except KExc Unit)
    (toSubscription : Option RnMap → Except KExc (Option σ))
    (sid eventName : String) (sendMessageId : Option String)
    (payload matching : Option RnMap) (matchingType : Option String)
    (profileFields subscription utm : Option RnMap) : Except KExc Unit :=
  let body : Except KExc Unit := do
    let utmData ← buildUTM utm
    let sub ← toSubscription subscription
    native
      { sid := sid
        eventName := eventName
        sendMessageId := sendMessageId
        payload := toKotlinMap payload
        matching := toKotlinMap matching
        matchingType := matchingType
        profileFields := toKotlinMap profileFields
        subscription := sub
        utm := utmData }
  match body with
  | .error _ => .ok ()
  | .ok _ => .ok ()

/-- `SdkModule.deliveryEvent` (Android): wrapped in `try`/`catch`,
exceptions ignored. -/
def deliveryEventAndroid
    (native : Option (List (String × String)) → Option String → Except KExc Unit)
    (message : Option RnMap) (messageUID : Option String) : Except KExc Unit :=
  match native (toStringMapOrNull message) messageUID with
  | .error _ => .ok ()
  | .ok _ => .ok ()

/-- `SdkModule.openEvent` (Android): wrapped in `try`/`catch`,
exceptions ignored. -/
def openEventAndroid
    (native : Option (List (String × String)) → Option String → Except KExc Unit)
    (message : Option RnMap) (messageUID : Option String) : Except KExc Unit :=
  match native (toStringMapOrNull message) messageUID with
  | .error _ => .ok ()
  | .ok _ => .ok ()

/-- `SdkModule.getPushToken` (Android): the native call runs in a
coroutine under `try`; success resolves with the token data (or `null`),
an exception rejects with the stable code `"getPushToken"` and the
throwable's message. -/
def getPushTokenAndroid
    (native : Except KExc (Option (String × String))) :
    Promise (Option (String × String)) :=
  match native with
  | .ok td => .resolved td
  | .error e => .rejected "getPushToken" (e.msg.getD "")

end AndroidBridge

end Altcraft

namespace Altcraft

/-! ## iOS bridge (`SdkModule.swift`, `Converter.swift`)

Swift/Obj-C values crossing the bridge are modelled by `SwiftAny`.
`Converter.toAny` and `Converter.parseJSONIfPossible` are mutually
recursive through the external JSON parser (`JSONSerialization`, a
Foundation collaborator modelled as the parameter `parse`): a JSON
document may contain strings that are themselves re-parsed.  The model
makes this recursion explicit with a fuel parameter; `ConvErr.outOfFuel`
marks exhaustion (in the real code the recursion always terminates
because each re-parse consumes part of a finite string).
`ConvErr.crash` models the `Int64(d)` trap inside `normalizeNumber`. -/

namespace IosBridge

/-- A Swift/Obj-C bridge value.  `sInt`/`sInt64` are produced only by the
numeric normalization; `sDict` uniformly carries `Option` values: an
`NSDictionary` input has all values `some`, a converted `[String: Any?]`
may hold `none` (the Swift code stores `nil` results under their keys). -/
inductive SwiftAny where
  | sNull
  | sBool (b : Bool)
  | sNum (d : KDouble)
  | sInt (z : Int)
  | sInt64 (z : Int)
  | sStr (s : String)
  | sDate (iso : String)
  | sData (b64 : String)
  | sArr (xs : List SwiftAny)
  | sDict (kvs : List (String × Option SwiftAny))
  | sOther (desc : String)

/-- Injection of a normalized number into the Swift value universe. -/
def KNum.toSwift : KNum → SwiftAny
  | .kInt z => .sInt z
  | .kLong z => .sInt64 z
  | .kDouble d => .sNum d

/-- `trimmingCharacters(in: .whitespacesAndNewlines)`. -/
def strTrim (s : String) : String :=
  ⟨((s.toList.dropWhile Char.isWhitespace).reverse.dropWhile
      Char.isWhitespace).reverse⟩

/-- Abnormal outcomes of the fuel-bounded conversion. -/
inductive ConvErr where
  | outOfFuel
  | crash
deriving DecidableEq, Repr

mutual

/-- `Converter.toAny`: recursive normalization of a bridge value.
`NSNull`/`nil` becomes `nil`; booleans pass through; numbers are
normalized (`ConvErr.crash` on the `Int64` trap); strings go through
`parseJSONIfPossible`; `Date`/`Data` become their ISO-8601/base64
strings; containers recurse (`nil`/empty containers normalize to `nil`,
arrays replace `nil` elements by `NSNull`); anything else becomes
`String(describing:)`. -/
def toAnyF (parse : String → Option SwiftAny) (fuel : Nat)
    (v : Option SwiftAny) : Except ConvErr (Option SwiftAny) :=
  match fuel, v with
  | 0, _ => .error .outOfFuel
  | _ + 1, none => .ok none
  | fuel + 1, some w =>
    match w with
    | .sNull => .ok none
    | .sBool b => .ok (some (.sBool b))
    | .sNum d =>
      match normalizeNumberSwift d with
      | none => .error .crash
      | some n => .ok (some (KNum.toSwift n))
    | .sInt z => .ok (some (.sInt z))
    | .sInt64 z => .ok (some (.sInt64 z))
    | .sStr s => parseJSONIfPossibleF parse fuel s
    | .sDate iso => .ok (some (.sStr iso))
    | .sData b64 => .ok (some (.sStr b64))
    | .sArr xs =>
      if xs.isEmpty then .ok none
      else do
        let out ← toAnyArrListF parse fuel xs
        .ok (some (.sArr out))
    | .sDict kvs =>
      if kvs.isEmpty then .ok none
      else do
        let out ← toAnyDictListF parse fuel kvs
        .ok (some (.sDict out))
    | .sOther desc => .ok (some (.sStr desc))

/-- The value-conversion loop of `Converter.toAnyDict` /
the `[String: Any?]` case of `toAny` (identical in the source):
every entry's value is converted, `nil` results are stored under their
keys. -/
def toAnyDictListF (parse : String → Option SwiftAny) (fuel : Nat)
    (kvs : List (String × Option SwiftAny)) :
    Except ConvErr (List (String × Option SwiftAny)) :=
  match fuel, kvs with
  | 0, _ => .error .outOfFuel
  | _ + 1, [] => .ok []
  | fuel + 1, (k, v) :: rest => do
    let r ← toAnyF parse fuel v
    let tail ← toAnyDictListF parse fuel rest
    .ok ((k, r) :: tail)

/-- The element loop of `Converter.toAnyArray`:
`out.append(toAny(item) ?? NSNull())`. -/
def toAnyArrListF (parse : String → Option SwiftAny) (fuel : Nat)
    (xs : List SwiftAny) : Except ConvErr (List SwiftAny) :=
  match fuel, xs with
  | 0, _ => .error .outOfFuel
  | _ + 1, [] => .ok []
  | fuel + 1, x :: rest => do
    let r ← toAnyF parse fuel (some x)
    let tail ← toAnyArrListF parse fuel rest
    .ok ((r.getD .sNull) :: tail)

/-- `Converter.parseJSONIfPossible`: trims the string; a whitespace-only
string yields `""`; a string whose trimmed form does not start with `{`
or `[` is returned unchanged; otherwise the trimmed string is parsed by
the external `JSONSerialization` (`parse`), a parse failure returns the
original string, and a parsed object is normalized by `toAny`
(`toAny(obj) ?? s`: a `nil` normalization falls back to the original
string). -/
def parseJSONIfPossibleF (parse : String → Option SwiftAny) (fuel : Nat)
    (s : String) : Except ConvErr (Option SwiftAny) :=
  match fuel with
  | 0 => .error .outOfFuel
  | fuel + 1 =>
    let trimmed := strTrim s
    if trimmed.isEmpty then .ok (some (.sStr ""))
    else if !(trimmed.toList.head? = some '{' ∨ trimmed.toList.head? = some '[' : Bool)
    then .ok (some (.sStr s))
    else
      match parse trimmed with
      | none => .ok (some (.sStr s))
      | some obj => do
        let r ← toAnyF parse fuel (some obj)
        .ok (some (r.getD (.sStr s)))

end

/-- `Converter.toAnyDict` proper: `nil` for a `nil` or empty dictionary,
otherwise the converted entries (all model keys are strings, so the
final `out.isEmpty ? nil : out` collapses to the emptiness of the
input). -/
def toAnyDictF (parse : String → Option SwiftAny) (fuel : Nat)
    (dict : Option (List (String × Option SwiftAny))) :
    Except ConvErr (Option (List (String × Option SwiftAny))) :=
  match dict with
  | none => .ok none
  | some kvs =>
    if kvs.isEmpty then .ok none
    else do
      let out ← toAnyDictListF parse fuel kvs
      .ok (some out)

end IosBridge

end Altcraft

namespace Altcraft

namespace IosBridge

/-- Swift `as? String` on a converted `Any?` value. -/
def castString : Option (Option SwiftAny) → Option String
  | some (some (.sStr s)) => some s
  | _ => none

/-- Swift `as? Bool` on a converted `Any?` value. -/
def castBool : Option (Option SwiftAny) → Option Bool
  | some (some (.sBool b)) => some b
  | _ => none

/-- Swift `as? [String]` on a converted `Any?` value: succeeds only when
every element is a string. -/
def castStringArray : Option (Option SwiftAny) → Option (List String)
  | some (some (.sArr xs)) =>
    xs.mapM fun v =>
      match v with
      | .sStr s => some s
      | _ => none
  | _ => none

/-- `Converter.normalizeStringAnyMap` restricted to the `[String: Any?]`
shape it receives from `toAnyDict` output: drops `nil` values, `nil` if
the remainder is empty; non-dictionary inputs give `nil`. -/
def normalizeStringAnyMap : Option SwiftAny → Option (List (String × SwiftAny))
  | some (.sDict kvs) =>
    let out := kvs.filterMap fun kv => kv.2.map (kv.1, ·)
    if out.isEmpty then none else some out
  | _ => none

/-- Swift `as? String` on a non-optional `Any` value. -/
def castStringPlain : Option SwiftAny → Option String
  | some (.sStr s) => some s
  | _ => none

/-- `Converter.appInfo(from:)`: builds `AppInfo` with `""` defaults for
missing/non-string fields; `nil` when all three are empty. -/
def appInfoFrom (any : Option SwiftAny) : Option AndroidBridge.AppInfo :=
  match normalizeStringAnyMap any with
  | none => none
  | some map =>
    let appID := (castStringPlain (List.lookup "appID" map)).getD ""
    let appIID := (castStringPlain (List.lookup "appIID" map)).getD ""
    let appVer := (castStringPlain (List.lookup "appVer" map)).getD ""
    if appID = "" ∧ appIID = "" ∧ appVer = "" then none
    else some ⟨appID, appIID, appVer⟩

/-- The arguments the iOS `initialize` hands to the external
`AltcraftConfiguration.Builder` chain. -/
structure IosBuilderArgs where
  apiUrl : String
  rToken : Option String
  appInfo : Option AndroidBridge.AppInfo
  providerPriorityList : Option (List String)
  enableLogging : Option Bool

/-- The `as? String` + non-emptiness guard `initialize` applies to
`dict["apiUrl"]`. -/
def apiUrlCast (dict : List (String × Option SwiftAny)) : Option String :=
  match List.lookup "apiUrl" dict with
  | some (some (.sStr s)) => some s
  | _ => none

/-- `SdkModule.initialize` (iOS): converts the incoming `NSDictionary`
with `Converter.toAnyDict` (`?? [:]`), guards that `apiUrl` is a
non-empty string (reject `ALTCRAFT_INIT_INVALID_CONFIG` otherwise),
builds the external configuration (reject `ALTCRAFT_INIT_INVALID_CONFIG`
when the builder fails), then runs the native initialization whose
boolean callback settles the promise.  The second component records
whether `AltcraftSDK.shared.initialization` was invoked. -/
def iosInitialize {C : Type} (parse : String → Option SwiftAny) (fuel : Nat)
    (build : IosBuilderArgs → Option C) (nativeInitOk : C → Bool)
    (config : List (String × Option SwiftAny)) :
    Except ConvErr (AndroidBridge.Promise Unit × Bool) := do
  let dictOpt ← toAnyDictF parse fuel (some config)
  let dict := dictOpt.getD []
  match apiUrlCast dict with
  | none => pure (.rejected "ALTCRAFT_INIT_INVALID_CONFIG" "apiUrl is required", false)
  | some apiUrl =>
    if apiUrl.isEmpty then
      pure (.rejected "ALTCRAFT_INIT_INVALID_CONFIG" "apiUrl is required", false)
    else
      let providerPriorityList := castStringArray (List.lookup "providerPriorityList" dict)
      let appInfo := appInfoFrom ((List.lookup "appInfo" dict).getD none)
      let enableLogging := castBool (List.lookup "enableLogging" dict)
      let rToken := castString (List.lookup "rToken" dict)
      match build ⟨apiUrl, rToken, appInfo, providerPriorityList, enableLogging⟩ with
      | none =>
        pure (.rejected "ALTCRAFT_INIT_INVALID_CONFIG" "Invalid Altcraft configuration", false)
      | some cfg =>
        if nativeInitOk cfg then pure (.resolved (), true)
        else pure (.rejected "ALTCRAFT_INIT_ERROR" "Altcraft initialization failed", true)

/-- `Converter.toCats` (iOS): non-empty strings become categories with
`active = true`; dictionaries are converted and kept when their converted
`name` is a string; everything else is skipped; an empty result becomes
`nil`. -/
def toCatsLoopF (parse : String → Option SwiftAny) (fuel : Nat) :
    List SwiftAny → Except ConvErr (List AndroidBridge.CategoryData)
  | [] => .ok []
  | item :: rest => do
    let tail ← toCatsLoopF parse fuel rest
    match item with
    | .sStr s =>
      if s.isEmpty then .ok tail
      else .ok (⟨s, none, none, some true⟩ :: tail)
    | .sDict kvs => do
      let mmOpt ← toAnyDictF parse fuel (some kvs)
      let mm := mmOpt.getD []
      match castString (List.lookup "name" mm) with
      | none => .ok tail
      | some name =>
        .ok (⟨name,
          castString (List.lookup "title" mm),
          castBool (List.lookup "steady" mm),
          castBool (List.lookup "active" mm)⟩ :: tail)
    | _ => .ok tail

/-- `Converter.toCats` entry: `nil` for `nil`/empty input or an empty
result. -/
def toCatsF (parse : String → Option SwiftAny) (fuel : Nat)
    (cats : Option (List SwiftAny)) :
    Except ConvErr (Option (List AndroidBridge.CategoryData)) :=
  match cats with
  | none => .ok none
  | some arr =>
    if arr.isEmpty then .ok none
    else do
      let out ← toCatsLoopF parse fuel arr
      .ok (if out.isEmpty then none else some out)

/-- The arguments the iOS `pushSubscribe`/`pushSuspend`/`pushUnSubscribe`
pass to `AltcraftSDK.shared.pushSubscriptionFunctions`. -/
structure IosSubscribeArgs where
  sync : Bool
  profileFields : Option (List (String × Option SwiftAny))
  customFields : Option (List (String × Option SwiftAny))
  cats : Option (List AndroidBridge.CategoryData)
  replace : Option Bool
  skipTriggers : Option Bool

/-- Argument marshalling of `SdkModule.pushSubscribe` (iOS):
`let s = sync?.boolValue ?? true`, field maps through
`Converter.toAnyDict`, categories through `Converter.toCats`. -/
def iosSubscribeArgs (parse : String → Option SwiftAny) (fuel : Nat)
    (sync : Option Bool)
    (profileFields customFields : Option (List (String × Option SwiftAny)))
    (cats : Option (List SwiftAny)) (replace skipTriggers : Option Bool) :
    Except ConvErr IosSubscribeArgs := do
  let pf ← toAnyDictF parse fuel profileFields
  let cf ← toAnyDictF parse fuel customFields
  let cs ← toCatsF parse fuel cats
  pure
    { sync := sync.getD true
      profileFields := pf
      customFields := cf
      cats := cs
      replace := replace
      skipTriggers := skipTriggers }

/-- `SdkModule.setPushToken` (iOS, RN bridge variant): `nil`/`NSNull`
becomes `nil`, other non-strings are stringified via
`String(describing:)` (the parameter `describe`), and the native *set*
entry point `pushTokenFunction.setPushToken` receives `tokenStr ?? ""` —
there is no call to any deletion entry point. -/
def setPushTokenIosArgs (describe : SwiftAny → String)
    (provider : String) (pushToken : Option SwiftAny) : String × String :=
  let tokenStr : Option String :=
    match pushToken with
    | none => none
    | some .sNull => none
    | some (.sStr s) => some s
    | some v => some (describe v)
  (provider, tokenStr.getD "")

/-- `SdkModule.setPushToken` (iOS, app-module variant,
`SdkModule.swift` lines 1216–1223): a direct passthrough — after
ensuring the stable providers are installed, the token value (possibly
`nil`) is forwarded *unmodified* to the native *set* entry point
`pushTokenFunction.setPushToken(provider:pushToken:)`; no coalescing
and no deletion call. -/
def setPushTokenIosPassthroughArgs (provider : String)
    (pushToken : Option SwiftAny) : String × Option SwiftAny :=
  (provider, pushToken)

end IosBridge

end Altcraft

namespace Altcraft

/-! ## iOS stable token providers (`SdkModule.swift`, app-module variant)

The module is a process-wide singleton holding three `lazy var` provider
objects (stable references created at most once) with backing token
values read under a lock.  The state machine below tracks the backing
values, the install flag, which provider reference the native SDK
currently holds per credential type, and — as ghost instrumentation —
how many times the guarded `installTokenProvidersIfNeeded` actually
performed its installation. -/

namespace IosTokens

inductive ProvKind where
  | fcm
  | hms
  | apns
deriving DecidableEq, Repr

/-- Identity of the stable provider object per credential type (the
`lazy var fcmProvider` / `hmsProvider` / `apnsProvider` stored on the
singleton).  Being a fixed constant per kind reflects that the object is
created at most once per process. -/
def providerRef : ProvKind → Nat
  | .fcm => 0
  | .hms => 1
  | .apns => 2

/-- Native SDK calls emitted by the module
(`push.setXTokenProvider(provider or nil)`). -/
inductive NCall where
  | registerProvider (p : ProvKind) (ref : Nat)
  | unregisterProvider (p : ProvKind)
deriving DecidableEq, Repr

structure ModuleState where
  fcm : Option String
  hms : Option String
  apns : Option String
  tokenProvidersInstalled : Bool
  fcmRegistered : Option Nat
  hmsRegistered : Option Nat
  apnsRegistered : Option Nat
  installCount : Nat
deriving DecidableEq, Repr

def initialState : ModuleState :=
  ⟨none, none, none, false, none, none, none, 0⟩

/-- `installTokenProvidersIfNeeded`: double-checked flag; when not yet
installed, registers all three stable providers and flips the flag.
`installCount` is ghost instrumentation counting actual installations. -/
def installTokenProvidersIfNeeded (st : ModuleState) : ModuleState × List NCall :=
  if st.tokenProvidersInstalled then (st, [])
  else
    ({ st with
        tokenProvidersInstalled := true
        fcmRegistered := some (providerRef .fcm)
        hmsRegistered := some (providerRef .hms)
        apnsRegistered := some (providerRef .apns)
        installCount := st.installCount + 1 },
     [.registerProvider .fcm (providerRef .fcm),
      .registerProvider .hms (providerRef .hms),
      .registerProvider .apns (providerRef .apns)])

/-- Kotlin/Swift `token == nil || token?.isEmpty == true`. -/
def isNilOrEmpty : Option String → Bool
  | none => true
  | some s => s.isEmpty

/-- `setFCM` (iOS): ensure providers installed, update the backing value
under the lock, then unregister the provider for a nil/empty token or
re-register the same stable reference otherwise. -/
def setFCM (token : Option String) (st : ModuleState) : ModuleState × List NCall :=
  let (st1, calls1) := installTokenProvidersIfNeeded st
  let st2 := { st1 with fcm := token }
  if isNilOrEmpty token then
    ({ st2 with fcmRegistered := none }, calls1 ++ [.unregisterProvider .fcm])
  else
    ({ st2 with fcmRegistered := some (providerRef .fcm) },
     calls1 ++ [.registerProvider .fcm (providerRef .fcm)])

/-- `setHMS` (iOS), same shape as `setFCM`. -/
def setHMS (token : Option String) (st : ModuleState) : ModuleState × List NCall :=
  let (st1, calls1) := installTokenProvidersIfNeeded st
  let st2 := { st1 with hms := token }
  if isNilOrEmpty token then
    ({ st2 with hmsRegistered := none }, calls1 ++ [.unregisterProvider .hms])
  else
    ({ st2 with hmsRegistered := some (providerRef .hms) },
     calls1 ++ [.registerProvider .hms (providerRef .hms)])

/-- `setAPNS` (iOS), same shape as `setFCM`. -/
def setAPNS (token : Option String) (st : ModuleState) : ModuleState × List NCall :=
  let (st1, calls1) := installTokenProvidersIfNeeded st
  let st2 := { st1 with apns := token }
  if isNilOrEmpty token then
    ({ st2 with apnsRegistered := none }, calls1 ++ [.unregisterProvider .apns])
  else
    ({ st2 with apnsRegistered := some (providerRef .apns) },
     calls1 ++ [.registerProvider .apns (providerRef .apns)])

/-- The module operations that touch the provider state. -/
inductive Op where
  | opSetFCM (t : Option String)
  | opSetHMS (t : Option String)
  | opSetAPNS (t : Option String)
  | opEnsure
deriving DecidableEq, Repr

def step (st : ModuleState) : Op → ModuleState × List NCall
  | .opSetFCM t => setFCM t st
  | .opSetHMS t => setHMS t st
  | .opSetAPNS t => setAPNS t st
  | .opEnsure => installTokenProvidersIfNeeded st

def run (st : ModuleState) : List Op → ModuleState × List NCall
  | [] => (st, [])
  | op :: rest =>
    let (st1, cs1) := step st op
    let (st2, cs2) := run st1 rest
    (st2, cs1 ++ cs2)

end IosTokens

/-! ## JS facade event subscription (`index.tsx`) -/

namespace JsEvents

/-- State of the `NativeEventEmitter` channel for `AltcraftSdkEvent` plus
the facade's module-level `eventsSubscription` and the native-side
subscription flag.  `listeners` is the emitter's registration list for
this event name, in registration order. -/
structure EmitterState (H : Type) where
  listeners : List (Nat × H)
  nextId : Nat
  current : Option Nat
  nativeSubscribed : Bool
deriving DecidableEq, Repr

/-- `subscription.remove()`. -/
def removeListener {H : Type} (st : EmitterState H) (i : Nat) : EmitterState H :=
  { st with listeners := st.listeners.filter (fun kv => kv.1 ≠ i) }

/-- `subscribeToEvents(handler)` (index.tsx): removes the previous
subscription if present, enables the native-side subscription, then adds
a fresh listener for `AltcraftSdkEvent`. -/
def subscribeToEvents {H : Type} (h : H) (st : EmitterState H) : EmitterState H :=
  let st1 :=
    match st.current with
    | some i => { removeListener st i with current := none }
    | none => st
  let st2 := { st1 with nativeSubscribed := true }
  { st2 with
      listeners := st2.listeners ++ [(st2.nextId, h)]
      current := some st2.nextId
      nextId := st2.nextId + 1 }

/-- `unsubscribeFromEvent()` (index.tsx): removes the listener if
present, then disables the native-side subscription; a no-op removal when
not subscribed. -/
def unsubscribeFromEvent {H : Type} (st : EmitterState H) : EmitterState H :=
  let st1 :=
    match st.current with
    | some i => { removeListener st i with current := none }
    | none => st
  { st1 with nativeSubscribed := false }

/-- The handlers that receive one emitted event (all listeners registered
for the channel, in order). -/
def deliver {H : Type} (st : EmitterState H) : List H :=
  st.listeners.map Prod.snd

/-- The facade owns every listener on this channel: the emitter's
registration list for `AltcraftSdkEvent` is exactly the facade's tracked
subscription.  (Only `subscribeToEvents` adds listeners for this event
name.) -/
def inv {H : Type} (st : EmitterState H) : Prop :=
  st.listeners.map Prod.fst = st.current.toList

end JsEvents

/-! ## JS facade call marshalling (`index.tsx`) -/

/-- The native-module call produced by the facade `pushSubscribe`
(likewise `pushSuspend` / `pushUnSubscribe`): field maps are converted
with `Utilities.toNativeStringMap`, the rest passes through.  `γ` is the
category-array type, passed through unchanged. -/
structure FacadeSubscribeCall (γ : Type) where
  sync : Option Bool
  profileFields : Option (List (String × String))
  customFields : Option (List (String × String))
  cats : Option γ
  replace : Option Bool
  skipTriggers : Option Bool

/-- `pushSubscribe` in `index.tsx`. -/
def jsPushSubscribe {γ : Type} (sync : Option Bool)
    (profileFields customFields : Option (List (String × JSValue)))
    (cats : Option γ) (replace skipTriggers : Option Bool) :
    FacadeSubscribeCall γ :=
  { sync := sync
    profileFields := Utilities.toNativeStringMap profileFields
    customFields := Utilities.toNativeStringMap customFields
    cats := cats
    replace := replace
    skipTriggers := skipTriggers }

/-- JS → RN marshalling of a `{ [key: string]: string }` object. -/
def stringMapToRn (m : List (String × String)) : AndroidBridge.RnMap :=
  m.map fun kv => (kv.1, .rStr kv.2)

end Altcraft

namespace Altcraft

/-- **C10**: on the Android bridge, every `setPushToken` call whose
provider is blank (empty or whitespace-only) rejects with code
`"setPushToken"` and message `"provider is blank"`, and the native
`setPushToken` entry point is never invoked (the native call trace is
empty). -/
theorem setPushToken_blank_provider_rejects
    (nativeSet : String → String → Except AndroidBridge.KExc Unit)
    (provider : String) (token : Option String)
    (hblank : AndroidBridge.isBlank provider = true) :
    AndroidBridge.setPushTokenAndroid nativeSet provider token =
      { promise := .rejected "setPushToken" "provider is blank"
        setCalls := []
        deleteCalls := [] } := by
  simp [AndroidBridge.setPushTokenAndroid, hblank]

theorem setPushToken_blank_provider_rejects_witness :
    AndroidBridge.setPushTokenAndroid (fun _ _ => .ok ()) " " (some "tok") =
      { promise := .rejected "setPushToken" "provider is blank"
        setCalls := []
        deleteCalls := [] } :=
  setPushToken_blank_provider_rejects _ " " (some "tok") (by decide)

/-- **C3 (amended)**: on the Android bridge, `mobileEvent`,
`deliveryEvent` and `openEvent` swallow every native exception (the call
always returns normally), and promise-based operations map a native
exception to a rejection carrying the stable operation-name code and the
exception's message; however `pushSubscribe`/`pushSuspend`/
`pushUnSubscribe`/`takePush` have no exception handler, so a native
exception propagates (see the counterexample).  On iOS the native entry
points are non-throwing, so the question does not arise. -/
theorem fireAndForget_exception_policy :
    (∀ (σ : Type) (native : AndroidBridge.MobileEventArgs σ → Except AndroidBridge.KExc Unit)
       (toSubscription : Option AndroidBridge.RnMap → Except AndroidBridge.KExc (Option σ))
       sid eventName sendMessageId payload matching matchingType
       profileFields subscription utm,
       AndroidBridge.mobileEventAndroid native toSubscription sid eventName
         sendMessageId payload matching matchingType profileFields subscription utm
         = .ok ()) ∧
    (∀ (native : Option (List (String × String)) → Option String → Except AndroidBridge.KExc Unit)
       message messageUID,
       AndroidBridge.deliveryEventAndroid native message messageUID = .ok ()) ∧
    (∀ (native : Option (List (String × String)) → Option String → Except AndroidBridge.KExc Unit)
       message messageUID,
       AndroidBridge.openEventAndroid native message messageUID = .ok ()) ∧
    (∀ e : AndroidBridge.KExc,
       AndroidBridge.getPushTokenAndroid (.error e)
         = .rejected "getPushToken" (e.msg.getD "")) := by
  refine ⟨?_, ?_, ?_, ?_⟩
  · intro σ native toSub sid en smi p m mt pf sub utm
    simp only [AndroidBridge.mobileEventAndroid]
    split <;> rfl
  · intro native msg uid
    simp only [AndroidBridge.deliveryEventAndroid]
    split <;> rfl
  · intro native msg uid
    simp only [AndroidBridge.openEventAndroid]
    split <;> rfl
  · intro e
    rfl

theorem fireAndForget_exception_policy_witness :
    AndroidBridge.mobileEventAndroid (σ := Unit)
      (fun _ => .error ⟨some "boom"⟩) (fun _ => .ok none)
      "sid" "ev" none none none none none none none = .ok () :=
  fireAndForget_exception_policy.1 Unit
    (fun _ => .error ⟨some "boom"⟩) (fun _ => .ok none)
    "sid" "ev" none none none none none none none

/-- **C3, counterexample**: the Android `pushSubscribe` body is not
wrapped in any exception handler — a native exception comes straight back
to the calling runtime instead of being swallowed. -/
theorem pushSubscribe_exception_propagates :
    AndroidBridge.pushSubscribeAndroid
      (fun _ => .error ⟨some "native failure"⟩) none none none none none none
      = .error ⟨some "native failure"⟩ := rfl

/-- **C6, counterexample**: `setPushToken("fcm", null)` on the Android
bridge revision shipped as `part_000` coalesces the token to `""` and
invokes the native *set* entry point
`PublicPushTokenFunctions.setPushToken("fcm", "")`; no deletion entry
point is invoked there, refuting the claim's universal "deletion path,
not the set path". -/
theorem setPushToken_null_counterexample :
    AndroidBridge.setPushTokenAndroid (fun _ _ => .ok ()) "fcm" none =
      { promise := .resolved ()
        setCalls := [("fcm", "")]
        deleteCalls := [] } := rfl

/-- **C6 (amended)**: the null-token behaviour of `setPushToken` is
revision-dependent.  The `src/android` module revision treats a null
token as "clear" and invokes the provider-specific *deletion* path
`deleteDeviceToken(provider)` — the claimed behaviour — while its
non-null tokens go to the set path.  The Android revision shipped as
`part_000` instead coalesces null to `""` and invokes the *set* path,
with no deletion call (see the counterexample).  On iOS, the RN-bridge
variant coalesces `nil`/`NSNull` to `""` onto the set path, and the
app-module variant forwards the token to the native set entry point
unmodified (`nil` uncoalesced).  Whether `getPushToken()` subsequently
reflects the removal is decided by the external native SDK. -/
theorem setPushToken_null_variants :
    -- src/android revision: null token → deletion path, not set path
    (∀ (nativeSet : String → String → Except AndroidBridge.KExc Unit)
       (nativeDelete : String → Except AndroidBridge.KExc Unit) provider,
       AndroidBridge.isBlank provider = false →
       (AndroidBridge.setPushTokenAndroidOld nativeSet nativeDelete
           provider none).deleteCalls = [provider] ∧
       (AndroidBridge.setPushTokenAndroidOld nativeSet nativeDelete
           provider none).setCalls = []) ∧
    -- src/android revision: non-null token → set path, no deletion
    (∀ (nativeSet : String → String → Except AndroidBridge.KExc Unit)
       (nativeDelete : String → Except AndroidBridge.KExc Unit) provider t,
       AndroidBridge.isBlank provider = false →
       (AndroidBridge.setPushTokenAndroidOld nativeSet nativeDelete
           provider (some t)).setCalls = [(provider, t)] ∧
       (AndroidBridge.setPushTokenAndroidOld nativeSet nativeDelete
           provider (some t)).deleteCalls = []) ∧
    -- part_000 revision: any token coalesced to token ?? "" onto the set
    -- path, never a deletion
    (∀ (nativeSet : String → String → Except AndroidBridge.KExc Unit)
       provider token, AndroidBridge.isBlank provider = false →
       (AndroidBridge.setPushTokenAndroid nativeSet provider token).setCalls
           = [(provider, token.getD "")] ∧
       (AndroidBridge.setPushTokenAndroid nativeSet provider token).deleteCalls
           = []) ∧
    -- iOS RN-bridge variant: nil/NSNull coalesced to "" onto the set path
    (∀ (describe : IosBridge.SwiftAny → String) provider,
       IosBridge.setPushTokenIosArgs describe provider none = (provider, "") ∧
       IosBridge.setPushTokenIosArgs describe provider (some .sNull) = (provider, "")) ∧
    -- iOS app-module variant: raw passthrough, nil forwarded uncoalesced
    (∀ provider (t : Option IosBridge.SwiftAny),
       IosBridge.setPushTokenIosPassthroughArgs provider t = (provider, t)) := by
  refine ⟨?_, ?_, ?_, ?_, ?_⟩
  · intro nativeSet nativeDelete provider hp
    simp only [AndroidBridge.setPushTokenAndroidOld, hp]
    cases h : nativeDelete provider <;> simp [h]
  · intro nativeSet nativeDelete provider t hp
    simp only [AndroidBridge.setPushTokenAndroidOld, hp]
    cases h : nativeSet provider t <;> simp [h]
  · intro nativeSet provider token hp
    simp only [AndroidBridge.setPushTokenAndroid, hp]
    cases h : nativeSet provider (token.getD "") <;> simp [h]
  · intro describe provider
    exact ⟨rfl, rfl⟩
  · intro provider t
    rfl

theorem setPushToken_null_variants_witness :
    (AndroidBridge.setPushTokenAndroidOld (fun _ _ => .ok ()) (fun _ => .ok ())
        "fcm" none).deleteCalls = ["fcm"] ∧
    (AndroidBridge.setPushTokenAndroid (fun _ _ => .ok ()) "apns" none).setCalls
        = [("apns", "")] :=
  ⟨((setPushToken_null_variants.1 (fun _ _ => .ok ()) (fun _ => .ok ()) "fcm")
      (by decide)).1,
   ((setPushToken_null_variants.2.2.1 (fun _ _ => .ok ()) "apns" none)
      (by decide)).1⟩

end Altcraft

namespace Altcraft

/-- **C1, counterexample**: a config whose `apiUrl` is the *empty
string* passes the Android bridge's validation untouched — with a native
configuration builder that accepts it, `AltcraftSDK.initialization` *is*
invoked (second component `true`) and the promise resolves instead of
rejecting with `ALTCRAFT_INIT_INVALID_CONFIG`.  (The Android bridge
checks only presence and stringness of `apiUrl`, never emptiness; the
iOS bridge also rejects the empty string.) -/
theorem initialize_empty_apiUrl_android_counterexample :
    AndroidBridge.rnInitialize (C := Unit) (fun _ => .ok ()) (fun _ => .success)
      [("apiUrl", .rStr "")] = (.resolved (), true) := rfl

/-- **C1 (amended)**: a config with a *missing* or *non-string* `apiUrl`
is rejected with `ALTCRAFT_INIT_INVALID_CONFIG` before the native
initialization entry point is invoked, on both bridges; the *empty
string* `apiUrl` is additionally rejected at the bridge on iOS only — on
Android it is forwarded to the external configuration builder (see the
counterexample). -/
theorem initialize_invalid_config_spec :
    -- Android: missing or null apiUrl
    (∀ (Cfg : Type) (build : AndroidBridge.BuilderArgs → Except AndroidBridge.KExc Cfg)
       (nativeInit : Cfg → AndroidBridge.InitResult) (config : AndroidBridge.RnMap),
       AndroidBridge.hasNonNullKey config "apiUrl" = false →
       AndroidBridge.rnInitialize build nativeInit config =
         (.rejected "ALTCRAFT_INIT_INVALID_CONFIG"
            "apiUrl is required for AltcraftConfiguration", false)) ∧
    -- Android: non-string, non-null apiUrl
    (∀ (Cfg : Type) (build : AndroidBridge.BuilderArgs → Except AndroidBridge.KExc Cfg)
       (nativeInit : Cfg → AndroidBridge.InitResult) (config : AndroidBridge.RnMap)
       (v : AndroidBridge.RnVal),
       List.lookup "apiUrl" config = some v →
       (∀ s, v ≠ .rStr s) → v ≠ .rNull →
       AndroidBridge.rnInitialize build nativeInit config =
         (.rejected "ALTCRAFT_INIT_INVALID_CONFIG"
            "Value for apiUrl cannot be cast to String", false)) ∧
    -- iOS: missing, non-string, or empty apiUrl (after toAnyDict conversion)
    (∀ (C : Type) (parse : String → Option IosBridge.SwiftAny) (fuel : Nat)
       (build : IosBridge.IosBuilderArgs → Option C) (ninit : C → Bool)
       (config : List (String × Option IosBridge.SwiftAny))
       (dict : Option (List (String × Option IosBridge.SwiftAny))),
       IosBridge.toAnyDictF parse fuel (some config) = .ok dict →
       (∀ s, IosBridge.apiUrlCast (dict.getD []) = some s → s = "") →
       IosBridge.iosInitialize parse fuel build ninit config =
         .ok (.rejected "ALTCRAFT_INIT_INVALID_CONFIG" "apiUrl is required", false)) := by
  refine ⟨?_, ?_, ?_⟩
  · intro Cfg build nativeInit config h
    simp [AndroidBridge.rnInitialize, AndroidBridge.buildConfiguration, h,
      throw, throwThe, MonadExceptOf.throw, Bind.bind, Except.bind,
      Except.instMonad]
  · intro Cfg build nativeInit config v hv hs hn
    have hnn : AndroidBridge.hasNonNullKey config "apiUrl" = true := by
      simp only [AndroidBridge.hasNonNullKey, AndroidBridge.hasKey,
        AndroidBridge.isNullKey, hv]
      cases v with
      | rNull => exact absurd rfl hn
      | _ => simp
    have hget : AndroidBridge.getStringK config "apiUrl" =
        .error ⟨some "Value for apiUrl cannot be cast to String"⟩ := by
      simp only [AndroidBridge.getStringK, hv]
      cases v with
      | rNull => exact absurd rfl hn
      | rStr s => exact absurd rfl (hs s)
      | _ => rfl
    simp [AndroidBridge.rnInitialize, AndroidBridge.buildConfiguration, hnn, hget,
      throw, throwThe, MonadExceptOf.throw, Bind.bind, Except.bind,
      pure, Except.pure, Except.instMonad]
  · intro Cfg parse fuel build ninit config dict hconv hapi
    simp only [IosBridge.iosInitialize, hconv, Except.bind, Bind.bind]
    cases hcast : IosBridge.apiUrlCast (dict.getD []) with
    | none => simp [hcast, pure, Except.pure]
    | some s =>
      have hs : s = "" := hapi s hcast
      subst hs
      simp [hcast, String.isEmpty, pure, Except.pure]

theorem initialize_invalid_config_spec_witness :
    AndroidBridge.rnInitialize (C := Unit) (fun _ => .ok ()) (fun _ => .success)
      [("rToken", .rStr "t")] =
      (.rejected "ALTCRAFT_INIT_INVALID_CONFIG"
         "apiUrl is required for AltcraftConfiguration", false) :=
  initialize_invalid_config_spec.1 Unit (fun _ => .ok ()) (fun _ => .success)
    [("rToken", .rStr "t")] (by decide)

end Altcraft

namespace Altcraft

theorem normalizeNumber_spec_witness :
    normalizeNumberAndroid (.finite ((5 : Int) : ℚ)) =
      (if intMinI ≤ (5 : Int) ∧ (5 : Int) ≤ intMaxI
       then KNum.kInt 5 else KNum.kLong 5) ∧
    normalizeNumberSwift (.finite ((5 : Int) : ℚ)) = some (.kInt 5) :=
  normalizeNumber_spec.2.2.2 5 (by decide) (by decide) (by decide)

/-- After one `subscribeToEvents` from an invariant state, the channel
holds exactly the fresh listener. -/
theorem subscribe_listeners {H : Type} (h : H) (st : JsEvents.EmitterState H)
    (hinv : JsEvents.inv st) :
    ∃ n, (JsEvents.subscribeToEvents h st).listeners = [(n, h)] ∧
      (JsEvents.subscribeToEvents h st).current = some n := by
  unfold JsEvents.subscribeToEvents
  cases hc : st.current with
  | none =>
    have hl : st.listeners = [] := by
      have := hinv
      rw [JsEvents.inv, hc] at this
      exact List.map_eq_nil_iff.mp this
    exact ⟨st.nextId, by simp [hl], by simp⟩
  | some i =>
    have hl : ∃ b, st.listeners = [(i, b)] := by
      have hmap := hinv
      rw [JsEvents.inv, hc] at hmap
      cases hlist : st.listeners with
      | nil => rw [hlist] at hmap; simp [Option.toList] at hmap
      | cons x t =>
        rw [hlist] at hmap
        simp [Option.toList] at hmap
        obtain ⟨hx, ht⟩ := hmap
        refine ⟨x.2, ?_⟩
        rw [ht, ← hx]
    obtain ⟨b, hb⟩ := hl
    refine ⟨(JsEvents.removeListener st i).nextId, ?_, ?_⟩
    · simp [JsEvents.removeListener, hb]
    · simp [JsEvents.removeListener]

/-- **C4**: from any state satisfying the channel-ownership invariant,
`subscribeToEvents(h1)` followed by `subscribeToEvents(h2)` leaves
exactly one listener — `h2` — on the event channel: an emitted event is
delivered to `h2` once and to `h1` not at all; the invariant is
preserved, and under it at most one subscription is ever active. -/
theorem subscribeToEvents_single_subscription {H : Type}
    (st : JsEvents.EmitterState H) (h1 h2 : H) (hinv : JsEvents.inv st) :
    JsEvents.deliver
        (JsEvents.subscribeToEvents h2 (JsEvents.subscribeToEvents h1 st)) = [h2] ∧
    JsEvents.inv
        (JsEvents.subscribeToEvents h2 (JsEvents.subscribeToEvents h1 st)) ∧
    (∀ st' : JsEvents.EmitterState H, JsEvents.inv st' →
      (JsEvents.deliver st').length ≤ 1) := by
  have hinv1 : JsEvents.inv (JsEvents.subscribeToEvents h1 st) := by
    obtain ⟨n, hl, hc⟩ := subscribe_listeners h1 st hinv
    rw [JsEvents.inv, hl, hc]
    rfl
  obtain ⟨n2, hl2, hc2⟩ :=
    subscribe_listeners h2 (JsEvents.subscribeToEvents h1 st) hinv1
  refine ⟨?_, ?_, ?_⟩
  · rw [JsEvents.deliver, hl2]
    rfl
  · rw [JsEvents.inv, hl2, hc2]
    rfl
  · intro st' hinv'
    rw [JsEvents.deliver, List.length_map]
    have := congrArg List.length hinv'
    rw [List.length_map] at this
    rw [this]
    cases st'.current <;> simp [Option.toList]

theorem subscribeToEvents_single_subscription_witness :
    JsEvents.deliver (JsEvents.subscribeToEvents 2 (JsEvents.subscribeToEvents 1
      (⟨[], 0, none, false⟩ : JsEvents.EmitterState Nat))) = [2] :=
  (subscribeToEvents_single_subscription
    (⟨[], 0, none, false⟩ : JsEvents.EmitterState Nat) 1 2 rfl).1

end Altcraft

namespace Altcraft

/-- **C5**: `sync = null` defaults to `true` at the bridge on both
platforms before the native SDK is invoked; in particular the facade call
`pushSubscribe(null, {a: 1}, null, null, null, null)` reaches the native
SDK with `sync = true` and `profileFields = {"a": "1"}` (the number
stringified by `Utilities.toNativeStringMap`). -/
theorem pushSubscribe_sync_default :
    (∀ (pf cf : Option AndroidBridge.RnMap) cats r sk,
       (AndroidBridge.subscribeArgs none pf cf cats r sk).sync = true) ∧
    (∀ parse fuel (pf cf : Option (List (String × Option IosBridge.SwiftAny)))
       cats r sk args,
       IosBridge.iosSubscribeArgs parse fuel none pf cf cats r sk = .ok args →
       args.sync = true) ∧
    (let call := jsPushSubscribe (γ := Unit) none
        (some [("a", JSValue.jNum 1)]) none none none none
     AndroidBridge.subscribeArgs call.sync (call.profileFields.map stringMapToRn)
        (call.customFields.map stringMapToRn) none call.replace call.skipTriggers
        = { sync := true
            profileFields := some [("a", .kaStr "1")]
            customFields := none
            cats := none
            replace := none
            skipTriggers := none }) ∧
    (let call := jsPushSubscribe (γ := Unit) none
        (some [("a", JSValue.jNum 1)]) none none none none
     IosBridge.iosSubscribeArgs (fun _ => none) 3 call.sync
        (call.profileFields.map (fun m => m.map fun kv => (kv.1, some (.sStr kv.2))))
        (call.customFields.map (fun m => m.map fun kv => (kv.1, some (.sStr kv.2))))
        none call.replace call.skipTriggers
        = .ok { sync := true
                profileFields := some [("a", some (.sStr "1"))]
                customFields := none
                cats := none
                replace := none
                skipTriggers := none }) := by
  refine ⟨?_, ?_, ?_, ?_⟩
  · intro pf cf cats r sk
    rfl
  · intro parse fuel pf cf cats r sk args h
    simp only [IosBridge.iosSubscribeArgs, Bind.bind, Except.bind] at h
    rcases h1 : IosBridge.toAnyDictF parse fuel pf with e | pf'
    · rw [h1] at h; cases h
    · rw [h1] at h
      rcases h2 : IosBridge.toAnyDictF parse fuel cf with e | cf'
      · rw [h2] at h; cases h
      · rw [h2] at h
        rcases h3 : IosBridge.toCatsF parse fuel cats with e | cs'
        · rw [h3] at h; cases h
        · rw [h3] at h
          simp only [pure, Except.pure] at h
          cases h
          rfl
  · rfl
  · rfl

theorem pushSubscribe_sync_default_witness :
    ({ sync := true, profileFields := none, customFields := none, cats := none,
       replace := none, skipTriggers := none } : IosBridge.IosSubscribeArgs).sync
      = true :=
  pushSubscribe_sync_default.2.1 (fun _ => none) 1 none none none none none _ rfl

/-- **C7, counterexample**: the single-space string is not shaped like
JSON, yet it does not pass through unchanged — the converter returns the
empty string for every whitespace-only input. -/
theorem parseJSONIfPossible_whitespace_counterexample :
    IosBridge.parseJSONIfPossibleF (fun _ => none) 1 " " =
      .ok (some (.sStr "")) ∧ (" " : String) ≠ "" := by
  exact ⟨rfl, by decide⟩

/-- **C7 (amended)**: a string whose trimmed form begins with `{` or `[`
is parsed by the external JSON parser and the parsed value is recursively
normalized (`toAny(obj) ?? s`: if the normalization yields `nil`, the
original string is returned); a parse failure returns the original
string unchanged; a string that is neither whitespace-only nor
JSON-shaped passes through unchanged; a whitespace-only string is
normalized to the empty string (the one exception to pass-through). -/
theorem parseJSONIfPossible_spec (parse : String → Option IosBridge.SwiftAny)
    (fuel : Nat) (s : String) :
    ((IosBridge.strTrim s).toList.head? = some '{' ∨
       (IosBridge.strTrim s).toList.head? = some '[' →
      (parse (IosBridge.strTrim s) = none →
        IosBridge.parseJSONIfPossibleF parse (fuel + 1) s = .ok (some (.sStr s))) ∧
      (∀ obj r, parse (IosBridge.strTrim s) = some obj →
        IosBridge.toAnyF parse fuel (some obj) = .ok r →
        IosBridge.parseJSONIfPossibleF parse (fuel + 1) s =
          .ok (some (r.getD (.sStr s))))) ∧
    (IosBridge.strTrim s ≠ "" →
      ¬((IosBridge.strTrim s).toList.head? = some '{' ∨
        (IosBridge.strTrim s).toList.head? = some '[') →
      IosBridge.parseJSONIfPossibleF parse (fuel + 1) s = .ok (some (.sStr s))) ∧
    (IosBridge.strTrim s = "" →
      IosBridge.parseJSONIfPossibleF parse (fuel + 1) s = .ok (some (.sStr ""))) := by
  have hne : ∀ _ : (IosBridge.strTrim s).toList.head? = some '{' ∨
      (IosBridge.strTrim s).toList.head? = some '[',
      (IosBridge.strTrim s).isEmpty = false := by
    intro h
    cases hl : (IosBridge.strTrim s).toList with
    | nil => rw [hl] at h; simp at h
    | cons c t =>
      have hnn : IosBridge.strTrim s ≠ "" := by
        intro habs
        rw [habs] at hl
        simp at hl
      cases hbe : (IosBridge.strTrim s).isEmpty
      · rfl
      · exact absurd ((String.isEmpty_iff _).mp hbe) hnn
  refine ⟨?_, ?_, ?_⟩
  · intro hshape
    have hbshape : ((IosBridge.strTrim s).toList.head? = some '{' ∨
        (IosBridge.strTrim s).toList.head? = some '[' : Bool) = true :=
      decide_eq_true hshape
    constructor
    · intro hparse
      simp only [IosBridge.parseJSONIfPossibleF, hne hshape, hbshape, hparse,
        Bool.not_true, Bool.false_eq_true, if_false]
    · intro obj r hparse hnorm
      simp only [IosBridge.parseJSONIfPossibleF, hne hshape, hbshape, hparse,
        hnorm, Bool.not_true, Bool.false_eq_true, if_false, Bind.bind,
        Except.bind]
  · intro hne' hshape
    have hb : ((IosBridge.strTrim s).toList.head? = some '{' ∨
        (IosBridge.strTrim s).toList.head? = some '[' : Bool) = false :=
      decide_eq_false hshape
    have hie : (IosBridge.strTrim s).isEmpty = false := by
      cases hbe : (IosBridge.strTrim s).isEmpty
      · rfl
      · exact absurd ((String.isEmpty_iff _).mp hbe) hne'
    simp only [IosBridge.parseJSONIfPossibleF, hie, hb, Bool.not_false,
      Bool.false_eq_true, if_false, if_true]
  · intro hempty
    have hie : (IosBridge.strTrim s).isEmpty = true := by
      rw [hempty]; rfl
    simp only [IosBridge.parseJSONIfPossibleF, hie, if_true]

theorem parseJSONIfPossible_spec_witness :
    IosBridge.parseJSONIfPossibleF (fun _ => some (.sArr [])) 2 "[]" =
      .ok (some (.sStr "[]")) :=
  ((parseJSONIfPossible_spec (fun _ => some (.sArr [])) 1 "[]").1
      (by decide)).2 (.sArr []) none rfl rfl

end Altcraft

namespace Altcraft

namespace IosTokens

/-- Reachability invariant of the provider module: the ghost install
counter never exceeds one (and is zero before the guarded install has
run), and the native SDK only ever holds the per-kind stable provider
reference (or none). -/
def Inv (st : ModuleState) : Prop :=
  (st.tokenProvidersInstalled = false → st.installCount = 0) ∧
  st.installCount ≤ 1 ∧
  (st.fcmRegistered = none ∨ st.fcmRegistered = some (providerRef .fcm)) ∧
  (st.hmsRegistered = none ∨ st.hmsRegistered = some (providerRef .hms)) ∧
  (st.apnsRegistered = none ∨ st.apnsRegistered = some (providerRef .apns))

theorem step_inv (st : ModuleState) (op : Op) (h : Inv st) :
    Inv (step st op).1 := by
  obtain ⟨h1, h2, h3, h4, h5⟩ := h
  cases op with
  | opEnsure =>
    cases hi : st.tokenProvidersInstalled with
    | true =>
      simp only [step, installTokenProvidersIfNeeded, hi, if_true]
      exact ⟨h1, h2, h3, h4, h5⟩
    | false =>
      simp only [step, installTokenProvidersIfNeeded, hi, Bool.false_eq_true,
        if_false]
      exact ⟨by intro hb; exact absurd hb (by simp),
        by simp [h1 hi], Or.inr rfl, Or.inr rfl, Or.inr rfl⟩
  | opSetFCM t =>
    cases hi : st.tokenProvidersInstalled with
    | true =>
      cases hn : isNilOrEmpty t with
      | true =>
        simp only [step, setFCM, installTokenProvidersIfNeeded, hi, if_true, hn]
        exact ⟨by intro hb; exact absurd hb (by simp), h2, Or.inl rfl, h4, h5⟩
      | false =>
        simp only [step, setFCM, installTokenProvidersIfNeeded, hi, if_true, hn,
          Bool.false_eq_true, if_false]
        exact ⟨by intro hb; exact absurd hb (by simp), h2, Or.inr rfl, h4, h5⟩
    | false =>
      cases hn : isNilOrEmpty t with
      | true =>
        simp only [step, setFCM, installTokenProvidersIfNeeded, hi,
          Bool.false_eq_true, if_false, hn, if_true]
        exact ⟨by intro hb; exact absurd hb (by simp),
          by simp [h1 hi], Or.inl rfl, Or.inr rfl, Or.inr rfl⟩
      | false =>
        simp only [step, setFCM, installTokenProvidersIfNeeded, hi,
          Bool.false_eq_true, if_false, hn]
        exact ⟨by intro hb; exact absurd hb (by simp),
          by simp [h1 hi], Or.inr rfl, Or.inr rfl, Or.inr rfl⟩
  | opSetHMS t =>
    cases hi : st.tokenProvidersInstalled with
    | true =>
      cases hn : isNilOrEmpty t with
      | true =>
        simp only [step, setHMS, installTokenProvidersIfNeeded, hi, if_true, hn]
        exact ⟨by intro hb; exact absurd hb (by simp), h2, h3, Or.inl rfl, h5⟩
      | false =>
        simp only [step, setHMS, installTokenProvidersIfNeeded, hi, if_true, hn,
          Bool.false_eq_true, if_false]
        exact ⟨by intro hb; exact absurd hb (by simp), h2, h3, Or.inr rfl, h5⟩
    | false =>
      cases hn : isNilOrEmpty t with
      | true =>
        simp only [step, setHMS, installTokenProvidersIfNeeded, hi,
          Bool.false_eq_true, if_false, hn, if_true]
        exact ⟨by intro hb; exact absurd hb (by simp),
          by simp [h1 hi], Or.inr rfl, Or.inl rfl, Or.inr rfl⟩
      | false =>
        simp only [step, setHMS, installTokenProvidersIfNeeded, hi,
          Bool.false_eq_true, if_false, hn]
        exact ⟨by intro hb; exact absurd hb (by simp),
          by simp [h1 hi], Or.inr rfl, Or.inr rfl, Or.inr rfl⟩
  | opSetAPNS t =>
    cases hi : st.tokenProvidersInstalled with
    | true =>
      cases hn : isNilOrEmpty t with
      | true =>
        simp only [step, setAPNS, installTokenProvidersIfNeeded, hi, if_true, hn]
        exact ⟨by intro hb; exact absurd hb (by simp), h2, h3, h4, Or.inl rfl⟩
      | false =>
        simp only [step, setAPNS, installTokenProvidersIfNeeded, hi, if_true, hn,
          Bool.false_eq_true, if_false]
        exact ⟨by intro hb; exact absurd hb (by simp), h2, h3, h4, Or.inr rfl⟩
    | false =>
      cases hn : isNilOrEmpty t with
      | true =>
        simp only [step, setAPNS, installTokenProvidersIfNeeded, hi,
          Bool.false_eq_true, if_false, hn, if_true]
        exact ⟨by intro hb; exact absurd hb (by simp),
          by simp [h1 hi], Or.inr rfl, Or.inr rfl, Or.inl rfl⟩
      | false =>
        simp only [step, setAPNS, installTokenProvidersIfNeeded, hi,
          Bool.false_eq_true, if_false, hn]
        exact ⟨by intro hb; exact absurd hb (by simp),
          by simp [h1 hi], Or.inr rfl, Or.inr rfl, Or.inr rfl⟩

theorem run_inv (ops : List Op) (st : ModuleState) (h : Inv st) :
    Inv (run st ops).1 := by
  induction ops generalizing st with
  | nil => exact h
  | cons op rest ih =>
    simp only [run]
    exact ih _ (step_inv st op h)

end IosTokens

/-- **C9**: for each iOS stable token setter (`setFCM`, `setHMS`,
`setAPNS`): a `nil`/empty token unregisters the corresponding provider
from the native SDK, a non-empty token (re-)registers the single stable
provider reference and updates only that provider's backing value (the
other backing values are untouched); along every operation sequence the
native SDK only ever holds the per-kind stable reference, and the
guarded provider installation runs at most once per process. -/
theorem iosTokenProviders_spec :
    (∀ t st, IosTokens.isNilOrEmpty t = true →
       (IosTokens.setFCM t st).1.fcmRegistered = none ∧
       (IosTokens.setFCM t st).1.fcm = t ∧
       (IosTokens.setFCM t st).1.hms = st.hms ∧
       (IosTokens.setFCM t st).1.apns = st.apns) ∧
    (∀ t st, IosTokens.isNilOrEmpty t = true →
       (IosTokens.setHMS t st).1.hmsRegistered = none ∧
       (IosTokens.setHMS t st).1.hms = t ∧
       (IosTokens.setHMS t st).1.fcm = st.fcm ∧
       (IosTokens.setHMS t st).1.apns = st.apns) ∧
    (∀ t st, IosTokens.isNilOrEmpty t = true →
       (IosTokens.setAPNS t st).1.apnsRegistered = none ∧
       (IosTokens.setAPNS t st).1.apns = t ∧
       (IosTokens.setAPNS t st).1.fcm = st.fcm ∧
       (IosTokens.setAPNS t st).1.hms = st.hms) ∧
    (∀ t st, IosTokens.isNilOrEmpty t = false →
       (IosTokens.setFCM t st).1.fcmRegistered =
           some (IosTokens.providerRef .fcm) ∧
       (IosTokens.setFCM t st).1.fcm = t ∧
       (IosTokens.setFCM t st).1.hms = st.hms ∧
       (IosTokens.setFCM t st).1.apns = st.apns) ∧
    (∀ t st, IosTokens.isNilOrEmpty t = false →
       (IosTokens.setHMS t st).1.hmsRegistered =
           some (IosTokens.providerRef .hms) ∧
       (IosTokens.setHMS t st).1.hms = t ∧
       (IosTokens.setHMS t st).1.fcm = st.fcm ∧
       (IosTokens.setHMS t st).1.apns = st.apns) ∧
    (∀ t st, IosTokens.isNilOrEmpty t = false →
       (IosTokens.setAPNS t st).1.apnsRegistered =
           some (IosTokens.providerRef .apns) ∧
       (IosTokens.setAPNS t st).1.apns = t ∧
       (IosTokens.setAPNS t st).1.fcm = st.fcm ∧
       (IosTokens.setAPNS t st).1.hms = st.hms) ∧
    (∀ ops : List IosTokens.Op,
       (IosTokens.run IosTokens.initialState ops).1.installCount ≤ 1 ∧
       ((IosTokens.run IosTokens.initialState ops).1.fcmRegistered = none ∨
        (IosTokens.run IosTokens.initialState ops).1.fcmRegistered =
          some (IosTokens.providerRef .fcm))) := by
  refine ⟨?_, ?_, ?_, ?_, ?_, ?_, ?_⟩
  · intro t st hn
    cases hi : st.tokenProvidersInstalled <;>
      simp [IosTokens.setFCM, IosTokens.installTokenProvidersIfNeeded, hi, hn]
  · intro t st hn
    cases hi : st.tokenProvidersInstalled <;>
      simp [IosTokens.setHMS, IosTokens.installTokenProvidersIfNeeded, hi, hn]
  · intro t st hn
    cases hi : st.tokenProvidersInstalled <;>
      simp [IosTokens.setAPNS, IosTokens.installTokenProvidersIfNeeded, hi, hn]
  · intro t st hn
    cases hi : st.tokenProvidersInstalled <;>
      simp [IosTokens.setFCM, IosTokens.installTokenProvidersIfNeeded, hi, hn]
  · intro t st hn
    cases hi : st.tokenProvidersInstalled <;>
      simp [IosTokens.setHMS, IosTokens.installTokenProvidersIfNeeded, hi, hn]
  · intro t st hn
    cases hi : st.tokenProvidersInstalled <;>
      simp [IosTokens.setAPNS, IosTokens.installTokenProvidersIfNeeded, hi, hn]
  · intro ops
    have h := IosTokens.run_inv ops IosTokens.initialState
      ⟨fun _ => rfl, by simp [IosTokens.initialState], Or.inl rfl,
       Or.inl rfl, Or.inl rfl⟩
    exact ⟨h.2.1, h.2.2.1⟩

theorem iosTokenProviders_spec_witness :
    (IosTokens.setFCM (some "tok") IosTokens.initialState).1.fcmRegistered =
      some (IosTokens.providerRef .fcm) :=
  ((iosTokenProviders_spec.2.2.2.1 (some "tok") IosTokens.initialState)
    (by decide)).1

end Altcraft
